import Mathlib

/-!
# Verification of the `cli-flashcards` terminal rendering and interaction engine

This file is a shallow embedding, in Lean 4, of the pure core of
`main.go` from the `cli-flashcards` repository: the text wrapper
(`wrapLines`), the answer formatter (`formatAnswerLines`), the card
layout engine (`buildCardContentLines`, `visibleContentLines`,
`cardWidth`, `cardMaxScroll`, `clampScroll`), tab expansion
(`expandTabs`), the question shuffle (`shuffleQuestions`), the
interaction state machine (`model.Update`) and the renderer
(`model.View`, `renderCard`, `renderGroupList`, `padToHeight`,
`padRight`, `visualWidth`, `truncateToVisualWidth`).

Modelling conventions:
* Go strings are modelled as `List Char` (type `Str`); lengths count
  characters (the Go code measures bytes, which coincides on the ASCII
  data exercised here).
* Go `int` is modelled as `Int`.  All divisions and remainders in the
  source act on non-negative operands, where Go and Lean agree.
* The external syntax highlighter (`highlightCode`, which delegates to
  the chroma library) and the external storage and randomness
  collaborators (`loadQuestions` on the database, `math/rand`) are
  modelled as explicit function parameters (`hl`, `load`, `rand`).
* Go slice indexing `xs[i]` is always executed in-range by the source;
  it is modelled with `getD`/a default element.
-/

/-- Go strings, modelled as lists of characters. -/
abbrev Str := List Char

/-- Character list of a Lean string literal. -/
def str (s : String) : Str := s.data

/-- Model of Go `unicode.IsSpace` on the characters that occur here
(space, tab, newline, carriage return). -/
def isWS (c : Char) : Bool := c.isWhitespace

/-- Model of Go `strings.TrimSpace`: drop whitespace from both ends. -/
def trimStr (s : Str) : Str :=
  ((s.dropWhile isWS).reverse.dropWhile isWS).reverse

/-- Split a character list at every separator character, keeping empty
pieces; one-separator special case of Go `strings.Split`. -/
def splitCharAux (sep : Char) : Str → Str → List Str
  | [], acc => [acc.reverse]
  | c :: rest, acc =>
    if c = sep then acc.reverse :: splitCharAux sep rest []
    else splitCharAux sep rest (c :: acc)

/-- Go `strings.Split(s, sep)` for a one-character separator. -/
def splitChar (sep : Char) (s : Str) : List Str := splitCharAux sep s []

/-- Split at every whitespace character (keeping empty pieces). -/
def splitWSAux : Str → Str → List Str
  | [], acc => [acc.reverse]
  | c :: rest, acc =>
    if isWS c then acc.reverse :: splitWSAux rest []
    else splitWSAux rest (c :: acc)

/-- Model of Go `strings.Fields`: the maximal whitespace-free runs. -/
def fields (s : Str) : List Str :=
  (splitWSAux s []).filter (fun w => ¬ w = [])

/-- Go `strings.Join(xs, "\n")`. -/
def joinNl : List Str → Str
  | [] => []
  | [x] => x
  | x :: rest => x ++ '\n' :: joinNl rest

/-- One iteration of the word loop of `wrapLines`: the accumulator pairs
the finished `lines` with the `strings.Builder` named `current`. -/
def wrapStep (width : Int) (acc : List Str × Str) (word : Str) : List Str × Str :=
  if acc.2.length = 0 then (acc.1, word)
  else if (acc.2.length : Int) + 1 + (word.length : Int) > width then
    (acc.1 ++ [acc.2], word)
  else (acc.1, acc.2 ++ ' ' :: word)

/-- `wrapLines` from `main.go` (the Text Wrapper): trim the text, split
it into whitespace-separated words, and greedily pack words onto lines
of at most `width` characters (a first word is always placed, even when
longer than `width`).  Transcribed from the source. -/
def wrapLines (text : Str) (width : Int) : List Str :=
  let t := trimStr text
  if t = [] then [[]]
  else
    let p := (fields t).foldl (wrapStep width) ([], [])
    let lines := if p.2.length > 0 then p.1 ++ [p.2] else p.1
    if lines = [] then [[]] else lines

/-- A wrapped line is either short enough, or it is a single input word
(longer than the width) standing alone. -/
def goodLine (words : List Str) (width : Int) (l : Str) : Prop :=
  (l.length : Int) ≤ width ∨ (l ∈ words ∧ (l.length : Int) > width)

theorem wrapLines_fold_inv (width : Int) (W : List Str) :
    ∀ (ws : List Str) (lines : List Str) (current : Str),
      (∀ w ∈ ws, w ∈ W) →
      (∀ l ∈ lines, goodLine W width l) →
      (current = [] ∨ goodLine W width current) →
      (∀ l ∈ (ws.foldl (wrapStep width) (lines, current)).1, goodLine W width l) ∧
        ((ws.foldl (wrapStep width) (lines, current)).2 = [] ∨
          goodLine W width (ws.foldl (wrapStep width) (lines, current)).2) := by
  intro ws
  induction ws with
  | nil =>
    intro lines current _ hlines hcur
    exact ⟨hlines, hcur⟩
  | cons w ws ih =>
    intro lines current hmem hlines hcur
    have hwW : w ∈ W := hmem w (List.mem_cons_self w ws)
    have hmem' : ∀ x ∈ ws, x ∈ W := fun x hx => hmem x (List.mem_cons_of_mem w hx)
    have hw : goodLine W width w := by
      rcases le_or_lt (w.length : Int) width with h | h
      · exact Or.inl h
      · exact Or.inr ⟨hwW, h⟩
    rw [List.foldl_cons]
    by_cases h0 : current.length = 0
    · rw [show wrapStep width (lines, current) w = (lines, w) by
        simp [wrapStep, h0]]
      exact ih lines w hmem' hlines (Or.inr hw)
    · by_cases hover : (current.length : Int) + 1 + (w.length : Int) > width
      · rw [show wrapStep width (lines, current) w = (lines ++ [current], w) by
          simp [wrapStep, h0, if_neg, hover]]
        have hcur' : goodLine W width current := by
          rcases hcur with h | h
          · exact absurd (by simp [h]) h0
          · exact h
        refine ih (lines ++ [current]) w hmem' ?_ (Or.inr hw)
        intro l hl
        rcases List.mem_append.mp hl with h | h
        · exact hlines l h
        · rcases List.mem_singleton.mp h with rfl
          exact hcur'
      · rw [show wrapStep width (lines, current) w = (lines, current ++ ' ' :: w) by
          simp only [wrapStep, if_neg h0, if_neg hover]]
        refine ih lines (current ++ ' ' :: w) hmem' hlines (Or.inr (Or.inl ?_))
        have : ((current ++ ' ' :: w).length : Int)
            = (current.length : Int) + 1 + (w.length : Int) := by
          simp [List.length_append]
          ring
        omega

/-- C4: for every text and width ≥ 1, `wrapLines` never returns an empty
list of lines; text that trims to empty yields exactly one empty line;
and every produced line either fits in `width` characters or is a single
whitespace-free input word longer than `width`, standing alone and
unsplit. -/
theorem wrapLines_spec (text : Str) (width : Int) (hw : 1 ≤ width) :
    wrapLines text width ≠ [] ∧
    (trimStr text = [] → wrapLines text width = [[]]) ∧
    (∀ l ∈ wrapLines text width, goodLine (fields (trimStr text)) width l) := by
  unfold wrapLines
  by_cases ht : trimStr text = []
  · refine ⟨by simp [ht], fun _ => by simp [ht], ?_⟩
    intro l hl
    simp only [ht, if_pos rfl] at hl
    rcases List.mem_singleton.mp hl with rfl
    exact Or.inl (by simp; omega)
  · simp only [if_neg ht]
    have hinv := wrapLines_fold_inv width (fields (trimStr text))
      (fields (trimStr text)) [] [] (fun w hw => hw) (by simp) (Or.inl rfl)
    set p := (fields (trimStr text)).foldl (wrapStep width) ([], []) with hp
    refine ⟨?_, fun h => absurd h ht, ?_⟩
    · by_cases h2 : p.2.length > 0
      · simp only [if_pos h2]
        intro h
        split at h
        · simp at h
        · simp at h
      · simp only [if_neg h2]
        split
        · simp
        · assumption
    · intro l hl
      by_cases h2 : p.2.length > 0
      · simp only [if_pos h2] at hl
        have hne : p.1 ++ [p.2] ≠ [] := by simp
        rw [if_neg hne] at hl
        rcases List.mem_append.mp hl with h | h
        · exact hinv.1 l h
        · rcases List.mem_singleton.mp h with rfl
          rcases hinv.2 with h | h
          · rw [h] at h2
            simp at h2
          · exact h
      · simp only [if_neg h2] at hl
        split at hl
        · rcases List.mem_singleton.mp hl with rfl
          exact Or.inl (by simp; omega)
        · exact hinv.1 l hl

/-- Witness for C4 at a concrete input. -/
theorem wrapLines_spec_witness :
    (1 : Int) ≤ 5 ∧ wrapLines (str ("hello world")) 5 ≠ [] :=
  ⟨by norm_num, (wrapLines_spec (str ("hello world")) 5 (by norm_num)).1⟩

/-- `expandTabs` from `main.go`: replace each tab with spaces up to the
next `tabWidth`-column stop.  The column counter `col` runs over the
whole string and is never reset (in particular not at newlines). -/
def expandTabsAux (tabWidth : Int) : Str → Int → Str
  | [], _ => []
  | c :: rest, col =>
    if c = '\t' then
      let sc := tabWidth - col % tabWidth
      let sc := if sc = 0 then tabWidth else sc
      List.replicate sc.toNat ' ' ++ expandTabsAux tabWidth rest (col + sc)
    else c :: expandTabsAux tabWidth rest (col + 1)

/-- `expandTabs(s, tabWidth)` from `main.go`. -/
def expandTabs (s : Str) (tabWidth : Int) : Str :=
  if tabWidth ≤ 0 ∨ ¬ s.contains '\t' then s
  else expandTabsAux tabWidth s 0

/-- Tab expansion as C6 words it: identical to `expandTabsAux`, except
that the column counter is reset to zero after every newline, so each
tab stop is measured from the start of the tab's own line.  This
definition follows the claim's words, for comparison with the source
function `expandTabs`. -/
def expandTabsPerLineAux (tabWidth : Int) : Str → Int → Str
  | [], _ => []
  | c :: rest, col =>
    if c = '\n' then c :: expandTabsPerLineAux tabWidth rest 0
    else if c = '\t' then
      let sc := tabWidth - col % tabWidth
      let sc := if sc = 0 then tabWidth else sc
      List.replicate sc.toNat ' ' ++ expandTabsPerLineAux tabWidth rest (col + sc)
    else c :: expandTabsPerLineAux tabWidth rest (col + 1)

/-- Per-line tab expansion (the behaviour C6 describes). -/
def expandTabsPerLine (s : Str) (tabWidth : Int) : Str :=
  if tabWidth ≤ 0 ∨ ¬ s.contains '\t' then s
  else expandTabsPerLineAux tabWidth s 0

/-- Go `strings.TrimRight(s, "\r")`: drop trailing carriage returns. -/
def dropCR (s : Str) : Str := (s.reverse.dropWhile (fun c => c = '\r')).reverse

/-- Go `strings.TrimSuffix(s, "\n")`: drop one trailing newline. -/
def trimSuffixNl (s : Str) : Str :=
  if s.getLast? = some '\n' then s.dropLast else s

/-- The bullet prefixes of `formatAnswerLines`: the first content line
of a whole answer gets a leading bullet, every later one a two-space
continuation indent.  This mirrors the Go loops
`for _, hl := range highlightedLines { ... }` and
`for i, w := range wrapped { ... }`, which consult and set the `used`
flag; the returned Boolean is the updated flag. -/
def prefixLines (used : Bool) : List Str → List Str × Bool
  | [] => ([], used)
  | l :: rest =>
    ((if used then str ("  ") ++ l else str ("- ") ++ l)
      :: rest.map (fun t => str ("  ") ++ t), true)

/-- The line loop of `formatAnswerLines` from `main.go`.  State threaded
through the recursion: the remaining input lines, the `inCode` flag, the
`used` ("first content emitted") flag, the captured code-fence language
tag, and the accumulated raw code lines.  `hl` is the external
`highlightCode` collaborator. -/
def formatAux (hl : Str → Str → Str) (width : Int) :
    List Str → Bool → Bool → Str → List Str → List Str
  | [], _, _, _, _ => []
  | raw :: rest, inCode, used, codeLang, codeLines =>
    let line := dropCR raw
    let trimmed := trimStr line
    if (str ("```")).isPrefixOf trimmed && !inCode then
      formatAux hl width rest true used (trimStr (trimmed.drop 3)) []
    else if (str ("```")).isPrefixOf trimmed && inCode then
      let code := expandTabs (joinNl codeLines) 4
      let highlighted := hl code codeLang
      let hlLines := splitChar '\n' (trimSuffixNl highlighted)
      let ep := prefixLines used hlLines
      ep.1 ++ formatAux hl width rest false ep.2 codeLang codeLines
    else if inCode then
      formatAux hl width rest true used codeLang (codeLines ++ [line])
    else if trimStr line = [] then
      (if used then [[]] else []) ++ formatAux hl width rest inCode used codeLang codeLines
    else
      -- both the bullet prefix and the continuation prefix have length 2
      let space := width - 2
      let space := if space < 1 then 1 else space
      let wrapped := wrapLines line space
      let ep := prefixLines used wrapped
      ep.1 ++ formatAux hl width rest inCode ep.2 codeLang codeLines

/-- `formatAnswerLines(answer, width)` from `main.go` (the Answer
Formatter), with the external highlighter passed as `hl`. -/
def formatAnswerLines (hl : Str → Str → Str) (answer : Str) (width : Int) : List Str :=
  formatAux hl width (splitChar '\n' answer) false false [] []

/-- The `Question` record from `main.go`. -/
structure Question where
  id : Int
  text : Str
  answers : List Str
  ty : Str
deriving DecidableEq

/-- The `TypeGroup` record from `main.go` (category label + count). -/
structure TypeGroup where
  ty : Str
  count : Int
deriving DecidableEq

/-- `buildCardContentLines(q, showAnswers, width)` from `main.go`: the
flat list of content lines of one card. -/
def buildCardContentLines (hl : Str → Str → Str) (q : Question)
    (showAnswers : Bool) (width : Int) : List Str :=
  str ("QUESTION") :: wrapLines q.text width ++ [[]]
    ++ (if showAnswers then
          str ("ANSWERS")
            :: (if q.answers = [] then [str ("(no answers stored)")]
                else q.answers.flatMap (fun ans => formatAnswerLines hl ans width))
            ++ [[]]
        else [])

/-- `visibleContentLines(total, height)` from `main.go`. -/
def visibleContentLines (total height : Int) : Int :=
  if total = 0 then 0
  else if height ≤ 0 then total
  else
    let v := height - 5
    let v := if v < 1 then 1 else v
    if v > total then total else v

/-- `cardWidth(termWidth)` from `main.go`. -/
def cardWidth (termWidth : Int) : Int :=
  let w := if termWidth > 0 then termWidth / 2 else 64
  if w < 34 then 34 else w

/-- `clampScroll(offset, max)` from `main.go`. -/
def clampScroll (offset mx : Int) : Int :=
  if offset < 0 then 0 else if offset > mx then mx else offset

/-- `cardMaxScroll(q, showAnswers, termWidth, termHeight)` from
`main.go`. -/
def cardMaxScroll (hl : Str → Str → Str) (q : Question) (showAnswers : Bool)
    (termWidth termHeight : Int) : Int :=
  let width := cardWidth termWidth
  let inner := width - 2
  let contentLines := buildCardContentLines hl q showAnswers (inner - 2)
  let visible := visibleContentLines (contentLines.length : Int) termHeight
  if visible = 0 ∨ (contentLines.length : Int) ≤ visible then 0
  else (contentLines.length : Int) - visible

/-- The seed question used by the scenario claims. -/
def goQuestion : Question :=
  { id := 1
  , text := str ("What is Go\x27s concurrency model built on?")
  , answers := [str ("Goroutines"), str ("Channels")]
  , ty := str ("general") }

/-- A trivial stand-in for the external highlighter, used at concrete
evaluation points where no fenced code block occurs. -/
def hlZero : Str → Str → Str := fun _ _ => []

/-- C1 (counterexample): with revealed=true on the scenario card at
width 60, the content lines do NOT continue the second answer with a
two-space indent — the claimed list (with `"  Channels"`) differs from
what `buildCardContentLines` produces, because every answer string is
formatted by its own `formatAnswerLines` call and so starts its own
bullet. -/
theorem buildCardContentLines_scenario_counterexample :
    buildCardContentLines hlZero goQuestion true 60 ≠
      [str ("QUESTION"), str ("What is Go\x27s concurrency model built on?"), [],
       str ("ANSWERS"), str ("- Goroutines"), str ("  Channels"), []] := by
  decide

/-- C1 (amended): on the scenario card at content width 60, revealed =
false yields exactly `QUESTION`, the question text, and a blank line;
revealed = true appends `ANSWERS`, `"- Goroutines"`, `"- Channels"` (each
answer gets its own bullet) and a blank line.  Independent of the
external highlighter, since no fenced code occurs. -/
theorem buildCardContentLines_scenario (hl : Str → Str → Str) :
    buildCardContentLines hl goQuestion false 60 =
      [str ("QUESTION"), str ("What is Go\x27s concurrency model built on?"), []] ∧
    buildCardContentLines hl goQuestion true 60 =
      [str ("QUESTION"), str ("What is Go\x27s concurrency model built on?"), [],
       str ("ANSWERS"), str ("- Goroutines"), str ("- Channels"), []] := by
  exact ⟨rfl, rfl⟩

/-- C6 (counterexample): expanding the accumulated two-line code block
`"ab\n\tx"` with 4-column stops, the source counts the tab's column from
the start of the whole string (column 3, after `a`, `b` and the
newline), producing a single space — not the four spaces that per-line
column counting (as the claim states it) would give. -/
theorem expandTabs_counterexample :
    expandTabs (str ("ab\n\tx")) 4 = str ("ab\n x") ∧
    expandTabsPerLine (str ("ab\n\tx")) 4 = str ("ab\n    x") ∧
    expandTabs (str ("ab\n\tx")) 4 ≠ expandTabsPerLine (str ("ab\n\tx")) 4 := by
  refine ⟨by decide, by decide, by decide⟩

theorem expandTabsAux_eq_perLine (tabWidth : Int) :
    ∀ (s : Str) (col : Int), '\n' ∉ s →
      expandTabsAux tabWidth s col = expandTabsPerLineAux tabWidth s col := by
  intro s
  induction s with
  | nil => intro col _; rfl
  | cons c rest ih =>
    intro col hnl
    have hc : ¬ c = '\n' := fun h => hnl (h ▸ List.mem_cons_self c rest)
    have hrest : '\n' ∉ rest := fun h => hnl (List.mem_cons_of_mem c h)
    by_cases ht : c = '\t'
    · subst ht
      simp only [expandTabsAux, expandTabsPerLineAux, if_pos rfl, if_neg hc]
      rw [ih _ hrest]
      simp
    · simp only [expandTabsAux, expandTabsPerLineAux, if_neg hc, if_neg ht]
      rw [ih _ hrest]

/-- C6 (amended): in `expandTabs` the column position is counted from
the start of the whole accumulated string — newlines advance the column
by one instead of resetting it — so the claimed per-line tab stops are
obtained exactly when the code block has no newline at all. -/
theorem expandTabs_single_line (s : Str) (hnl : '\n' ∉ s) :
    expandTabs s 4 = expandTabsPerLine s 4 := by
  unfold expandTabs expandTabsPerLine
  split
  · rfl
  · exact expandTabsAux_eq_perLine 4 s 0 hnl

/-- Witness for C6 (amended) at a concrete single-line input. -/
theorem expandTabs_single_line_witness :
    '\n' ∉ str ("a\tb") ∧ expandTabs (str ("a\tb")) 4 = expandTabsPerLine (str ("a\tb")) 4 :=
  ⟨by decide, expandTabs_single_line (str ("a\tb")) (by decide)⟩

/-- A continuation display line: two-space indented, or an (unprefixed)
blank separator line. -/
def contLine (l : Str) : Prop := (∃ t, l = str ("  ") ++ t) ∨ l = []

/-- Output shape of the Answer Formatter: possibly empty; otherwise a
bulleted first line followed only by continuation lines. -/
def bulletShape : List Str → Prop
  | [] => True
  | f :: rest => (∃ t, f = str ("- ") ++ t) ∧ ∀ l ∈ rest, contLine l

theorem prefixLines_true (ls : List Str) :
    prefixLines true ls = (ls.map (fun t => str ("  ") ++ t), true) := by
  cases ls with
  | nil => rfl
  | cons l rest => simp [prefixLines]

theorem prefixLines_false_nil : prefixLines false ([] : List Str) = ([], false) := rfl

theorem prefixLines_false_cons (l : Str) (rest : List Str) :
    prefixLines false (l :: rest) =
      ((str ("- ") ++ l) :: rest.map (fun t => str ("  ") ++ t), true) := by
  simp [prefixLines]

theorem contLine_map (ls : List Str) :
    ∀ x ∈ ls.map (fun t => str ("  ") ++ t), contLine x := by
  intro x hx
  rcases List.mem_map.mp hx with ⟨t, _, rfl⟩
  exact Or.inl ⟨t, rfl⟩

theorem formatAux_shape (hl : Str → Str → Str) (width : Int) :
    ∀ (ls : List Str) (inCode used : Bool) (lang : Str) (code : List Str),
      (used = true → ∀ l ∈ formatAux hl width ls inCode used lang code, contLine l) ∧
      (used = false → bulletShape (formatAux hl width ls inCode used lang code)) := by
  intro ls
  induction ls with
  | nil =>
    intro inCode used lang code
    constructor
    · intro _ l hl
      simp [formatAux] at hl
    · intro _
      simp [formatAux, bulletShape]
  | cons raw rest ih =>
    intro inCode used lang code
    rw [show formatAux hl width (raw :: rest) inCode used lang code =
      (let line := dropCR raw
       let trimmed := trimStr line
       if (str ("```")).isPrefixOf trimmed && !inCode then
         formatAux hl width rest true used (trimStr (trimmed.drop 3)) []
       else if (str ("```")).isPrefixOf trimmed && inCode then
         let code2 := expandTabs (joinNl code) 4
         let highlighted := hl code2 lang
         let hlLines := splitChar '\n' (trimSuffixNl highlighted)
         let ep := prefixLines used hlLines
         ep.1 ++ formatAux hl width rest false ep.2 lang code
       else if inCode then
         formatAux hl width rest true used lang (code ++ [line])
       else if trimStr line = [] then
         (if used then [[]] else []) ++ formatAux hl width rest inCode used lang code
       else
         let space := width - 2
         let space := if space < 1 then 1 else space
         let wrapped := wrapLines line space
         let ep := prefixLines used wrapped
         ep.1 ++ formatAux hl width rest inCode ep.2 lang code) from rfl]
    simp only []
    set line := dropCR raw with hline
    set trimmed := trimStr line with htrimmed
    by_cases hopen : ((str ("```")).isPrefixOf trimmed && !inCode) = true
    · rw [if_pos hopen]
      exact ih true used (trimStr (trimmed.drop 3)) []
    · rw [if_neg hopen]
      by_cases hclose : ((str ("```")).isPrefixOf trimmed && inCode) = true
      · rw [if_pos hclose]
        set hlLines := splitChar '\n' (trimSuffixNl (hl (expandTabs (joinNl code) 4) lang))
          with hhlLines
        constructor
        · intro hused l hmem
          subst hused
          rw [prefixLines_true] at hmem
          simp only [] at hmem
          rcases List.mem_append.mp hmem with h | h
          · exact contLine_map _ _ h
          · exact (ih false true lang code).1 rfl l h
        · intro hused
          subst hused
          cases hlLines with
          | nil =>
            rw [prefixLines_false_nil]
            simp only [List.nil_append]
            exact (ih false false lang code).2 rfl
          | cons x xs =>
            rw [prefixLines_false_cons]
            simp only []
            refine ⟨⟨x, rfl⟩, ?_⟩
            intro l hmem
            rcases List.mem_append.mp hmem with h | h
            · exact contLine_map _ _ h
            · exact (ih false true lang code).1 rfl l h
      · rw [if_neg hclose]
        by_cases hin : inCode = true
        · rw [if_pos hin]
          exact ih true used lang (code ++ [line])
        · rw [if_neg hin]
          by_cases hblank : trimStr line = []
          · rw [if_pos hblank]
            constructor
            · intro hused l hmem
              subst hused
              simp only [if_pos rfl] at hmem
              rcases List.mem_append.mp hmem with h | h
              · rcases List.mem_singleton.mp h with rfl
                exact Or.inr rfl
              · exact (ih inCode true lang code).1 rfl l h
            · intro hused
              subst hused
              simp only [if_neg (Bool.false_ne_true)]
              rw [List.nil_append]
              exact (ih inCode false lang code).2 rfl
          · rw [if_neg hblank]
            set wrapped := wrapLines line (if width - 2 < 1 then 1 else width - 2)
              with hwrapped
            constructor
            · intro hused l hmem
              subst hused
              rw [prefixLines_true] at hmem
              simp only [] at hmem
              rcases List.mem_append.mp hmem with h | h
              · exact contLine_map _ _ h
              · exact (ih inCode true lang code).1 rfl l h
            · intro hused
              subst hused
              cases wrapped with
              | nil =>
                rw [prefixLines_false_nil]
                simp only [List.nil_append]
                exact (ih inCode false lang code).2 rfl
              | cons x xs =>
                rw [prefixLines_false_cons]
                simp only []
                refine ⟨⟨x, rfl⟩, ?_⟩
                intro l hmem
                rcases List.mem_append.mp hmem with h | h
                · exact contLine_map _ _ h
                · exact (ih inCode true lang code).1 rfl l h

/-- C2 (counterexample): for the answer `"a\n\nb"` at width 60, the
interior blank line is emitted as the empty string with NO two-space
prefix, so it is false that every later output line begins with
`"  "`. -/
theorem formatAnswerLines_blank_counterexample :
    formatAnswerLines hlZero (str ("a\n\nb")) 60 = [str ("- a"), [], str ("  b")] ∧
    ¬ ∃ t, ([] : Str) = str ("  ") ++ t := by
  constructor
  · decide
  · rintro ⟨t, ht⟩
    simp [str] at ht

/-- C2 (amended): for every answer text, highlighter and width, the
output of `formatAnswerLines` is either empty, or its first line begins
with `"- "` and every later line either begins with `"  "` (wrapped
continuations and highlighted code lines) or is an empty string (the
blank separator lines, which carry no prefix). -/
theorem formatAnswerLines_shape (hl : Str → Str → Str) (width : Int)
    (answer : Str) (_hne : answer ≠ []) :
    bulletShape (formatAnswerLines hl answer width) :=
  (formatAux_shape hl width (splitChar '\n' answer) false false [] []).2 rfl

/-- Witness for C2 (amended) at a concrete input. -/
theorem formatAnswerLines_shape_witness :
    str ("x\ny") ≠ ([] : Str) ∧ bulletShape (formatAnswerLines hlZero (str ("x\ny")) 60) :=
  ⟨by decide, formatAnswerLines_shape hlZero 60 (str ("x\ny")) (by decide)⟩

/-- C5: `visibleContentLines` returns all lines when the terminal height
is unknown (`height ≤ 0`), and otherwise `height - 5` clamped from below
by 1 and from above by the total (the lower clamp is applied first, so a
zero total still yields 0); `cardMaxScroll` equals
`max 0 (total - visible)` as computed in `renderCard`; and the scenario:
terminal height 10 with 20 content lines gives a visible window of 5 and
a maximum scroll of 15. -/
theorem visibleWindow_spec :
    (∀ total height : Int, visibleContentLines total height =
      if height ≤ 0 then total else min (max (height - 5) 1) total) ∧
    (∀ (hl : Str → Str → Str) (q : Question) (sa : Bool) (tw th : Int),
      cardMaxScroll hl q sa tw th =
        max 0 (((buildCardContentLines hl q sa (cardWidth tw - 2 - 2)).length : Int)
          - visibleContentLines
              ((buildCardContentLines hl q sa (cardWidth tw - 2 - 2)).length : Int) th)) ∧
    visibleContentLines 20 10 = 5 ∧
    max 0 (20 - visibleContentLines 20 10) = 15 := by
  have hform : ∀ total height : Int, visibleContentLines total height =
      if height ≤ 0 then total else min (max (height - 5) 1) total := by
    intro total height
    show (if total = 0 then 0
      else if height ≤ 0 then total
      else if (if height - 5 < 1 then 1 else height - 5) > total then total
      else (if height - 5 < 1 then 1 else height - 5)) =
      if height ≤ 0 then total else min (max (height - 5) 1) total
    split_ifs <;> omega
  refine ⟨hform, ?_, by decide, by decide⟩
  intro hl q sa tw th
  have hL : (0 : Int) ≤ ((buildCardContentLines hl q sa (cardWidth tw - 2 - 2)).length : Int) :=
    Int.natCast_nonneg _
  show (if visibleContentLines
          ((buildCardContentLines hl q sa (cardWidth tw - 2 - 2)).length : Int) th = 0 ∨
        ((buildCardContentLines hl q sa (cardWidth tw - 2 - 2)).length : Int) ≤
          visibleContentLines
            ((buildCardContentLines hl q sa (cardWidth tw - 2 - 2)).length : Int) th
      then 0
      else ((buildCardContentLines hl q sa (cardWidth tw - 2 - 2)).length : Int) -
        visibleContentLines
          ((buildCardContentLines hl q sa (cardWidth tw - 2 - 2)).length : Int) th) = _
  rw [hform]
  split_ifs <;> omega

/-- C10: a card with zero content lines has a visible window of 0 (the
`total == 0` early return fires before the lower clamp to 1), and
`cardMaxScroll` is 0 whenever the content fits inside the visible
window. -/
theorem visibleWindow_empty_spec :
    (∀ height : Int, visibleContentLines 0 height = 0) ∧
    (∀ (hl : Str → Str → Str) (q : Question) (sa : Bool) (tw th : Int),
      ((buildCardContentLines hl q sa (cardWidth tw - 2 - 2)).length : Int) ≤
          visibleContentLines
            ((buildCardContentLines hl q sa (cardWidth tw - 2 - 2)).length : Int) th →
        cardMaxScroll hl q sa tw th = 0) := by
  constructor
  · intro height
    unfold visibleContentLines
    simp
  · intro hl q sa tw th hfit
    unfold cardMaxScroll
    rw [if_pos (Or.inr hfit)]

/-- Witness for C10 at a concrete card and terminal size. -/
theorem visibleWindow_empty_spec_witness :
    (((buildCardContentLines hlZero goQuestion false (cardWidth 64 - 2 - 2)).length : Int) ≤
        visibleContentLines
          ((buildCardContentLines hlZero goQuestion false (cardWidth 64 - 2 - 2)).length : Int) 0) ∧
    cardMaxScroll hlZero goQuestion false 64 0 = 0 :=
  ⟨by decide, visibleWindow_empty_spec.2 hlZero goQuestion false 64 0 (by decide)⟩

/-- Default question used to model Go slice indexing. -/
def qDefault : Question := { id := 0, text := [], answers := [], ty := [] }

/-- Model of Go `questions[i]` (in-range wherever the source reads it). -/
def getQ (l : List Question) (i : Nat) : Question := l.getD i qDefault

/-- The swap closure passed to `rng.Shuffle`:
`questions[i], questions[j] = questions[j], questions[i]`. -/
def swapQ (l : List Question) (i j : Nat) : List Question :=
  (l.set i (getQ l j)).set j (getQ l i)

/-- The Fisher–Yates loop of Go `rand.Shuffle(n, swap)`: for
`i = n-1, …, 1` swap position `i` with a source-chosen position
`j ∈ [0, i]`.  The external random source is modelled by `rand`; the
value it supplies at step `i` is reduced mod `i+1`, matching
`rand.Shuffle`'s guarantee that `j ∈ [0, i]`. -/
def shuffleAux (rand : Nat → Nat) : List Question → Nat → List Question
  | l, 0 => l
  | l, Nat.succ k => shuffleAux rand (swapQ l (k + 1) (rand (k + 1) % (k + 2))) k

/-- `shuffleQuestions` from `main.go`: a no-op on fewer than two
questions, otherwise the Fisher–Yates shuffle driven by the external
random source. -/
def shuffleQuestions (rand : Nat → Nat) (questions : List Question) : List Question :=
  if questions.length < 2 then questions
  else shuffleAux rand questions (questions.length - 1)

theorem getD_cons_zero_perm :
    ∀ (t : List Question) (m : Nat) (a : Question), m < t.length →
      List.Perm (t.getD m qDefault :: t.set m a) (a :: t) := by
  intro t
  induction t with
  | nil =>
    intro m a hm
    simp at hm
  | cons b t ih =>
    intro m a hm
    cases m with
    | zero =>
      simp only [List.getD_cons_zero, List.set_cons_zero]
      exact List.Perm.swap a b t
    | succ k =>
      simp only [List.getD_cons_succ, List.set_cons_succ]
      have hk : k < t.length := by simpa using hm
      exact ((List.Perm.swap b _ _).trans
        (List.Perm.cons b (ih k a hk))).trans (List.Perm.swap a b t)

theorem swapQ_perm :
    ∀ (l : List Question) (i j : Nat), i < l.length → j < l.length →
      List.Perm (swapQ l i j) l := by
  intro l
  induction l with
  | nil =>
    intro i j hi _
    simp at hi
  | cons a t ih =>
    intro i j hi hj
    cases i with
    | zero =>
      cases j with
      | zero =>
        simp [swapQ, getQ]
      | succ m =>
        have hm : m < t.length := by simpa using hj
        simp only [swapQ, getQ, List.getD_cons_succ, List.getD_cons_zero,
          List.set_cons_zero, List.set_cons_succ]
        exact getD_cons_zero_perm t m a hm
    | succ k =>
      cases j with
      | zero =>
        have hk : k < t.length := by simpa using hi
        simp only [swapQ, getQ, List.getD_cons_succ, List.getD_cons_zero,
          List.set_cons_zero, List.set_cons_succ]
        exact getD_cons_zero_perm t k a hk
      | succ m =>
        have hk : k < t.length := by simpa using hi
        have hm : m < t.length := by simpa using hj
        simp only [swapQ, getQ, List.getD_cons_succ, List.set_cons_succ]
        exact List.Perm.cons a (ih k m hk hm)

theorem swapQ_length (l : List Question) (i j : Nat) :
    (swapQ l i j).length = l.length := by
  simp [swapQ]

theorem shuffleAux_perm (rand : Nat → Nat) :
    ∀ (i : Nat) (l : List Question), i < l.length →
      List.Perm (shuffleAux rand l i) l := by
  intro i
  induction i with
  | zero =>
    intro l _
    exact List.Perm.refl l
  | succ k ih =>
    intro l hi
    have hj : rand (k + 1) % (k + 2) < l.length :=
      lt_of_le_of_lt (Nat.le_of_lt_succ (Nat.mod_lt _ (Nat.succ_pos _))) hi
    have hlen : (swapQ l (k + 1) (rand (k + 1) % (k + 2))).length = l.length :=
      swapQ_length l _ _
    have hk : k < (swapQ l (k + 1) (rand (k + 1) % (k + 2))).length := by
      rw [hlen]; exact Nat.lt_of_succ_lt hi
    exact (ih _ hk).trans (swapQ_perm l (k + 1) _ hi hj)

/-- C9: for every random source, `shuffleQuestions` returns a
permutation of its input (same multiset, hence same length), and inputs
of length 0 or 1 are returned unchanged. -/
theorem shuffleQuestions_perm (rand : Nat → Nat) (questions : List Question) :
    List.Perm (shuffleQuestions rand questions) questions ∧
    (shuffleQuestions rand questions).length = questions.length ∧
    (questions.length ≤ 1 → shuffleQuestions rand questions = questions) := by
  have hperm : List.Perm (shuffleQuestions rand questions) questions := by
    unfold shuffleQuestions
    split_ifs with h
    · exact List.Perm.refl questions
    · exact shuffleAux_perm rand (questions.length - 1) questions (by omega)
  refine ⟨hperm, hperm.length_eq, ?_⟩
  intro h1
  unfold shuffleQuestions
  rw [if_pos (by omega)]

/-- Witness for C9 at a concrete singleton input. -/
theorem shuffleQuestions_perm_witness :
    [goQuestion].length ≤ 1 ∧
      shuffleQuestions (fun _ => 0) [goQuestion] = [goQuestion] :=
  ⟨by decide, (shuffleQuestions_perm (fun _ => 0) [goQuestion]).2.2 (by decide)⟩

/-- The accent colour escape sequence, `orange` from `main.go`. -/
def orange : Str := str ("\x1b[38;5;208m")

/-- The colour reset escape sequence, `reset` from `main.go`. -/
def reset : Str := str ("\x1b[0m")

/-- The two UI modes (`modeCards`, `modeGroup` in `main.go`). -/
inductive GoMode where
  | cards
  | group
deriving DecidableEq

/-- The `tea.KeyMsg` key types that `model.Update` inspects. -/
inductive KeyType where
  | esc
  | enter
  | backspace
  | ctrlH
  | runes
  | other
deriving DecidableEq

/-- A key event: `str` models `msg.String()`, `ktype` models `msg.Type`,
and `runes` models `string(msg.Runes)`.  Key descriptors are kept as
Lean `String`s, whereas text that flows into the UI state (`runes`) is a
`Str` like all other modelled Go strings. -/
structure KeyMsg where
  str : String
  ktype : KeyType
  runes : Str
deriving DecidableEq

/-- The events `model.Update` dispatches on. -/
inductive Msg where
  | windowSize (width height : Int)
  | key (k : KeyMsg)
  | other
deriving DecidableEq

/-- The only command the state machine ever emits. -/
inductive GoCmd where
  | quit
deriving DecidableEq

/-- The `model` struct from `main.go`.  The `db` handle is not part of
the state; the `loadQuestions` closure over it is passed to `update`
directly.  Errors are modelled by their message string. -/
structure Model where
  mode : GoMode
  questions : List Question
  index : Int
  showAnswers : Bool
  scrollOffset : Int
  width : Int
  height : Int
  groups : List TypeGroup
  groupIndex : Int
  groupQuery : Str
  groupSearch : Bool
  err : Option Str
deriving DecidableEq

/-- `filterGroups(groups, query)` from `main.go`: case-insensitive
substring filter on the category label; a blank query keeps
everything. -/
def containsSub : Str → Str → Bool
  | [], nee => nee.isEmpty
  | h :: t, nee => nee.isPrefixOf (h :: t) || containsSub t nee

/-- Lower-casing, Go `strings.ToLower` on the characters used here. -/
def toLowerStr (s : Str) : Str := s.map Char.toLower

/-- `filterGroups` from `main.go`. -/
def filterGroups (groups : List TypeGroup) (query : Str) : List TypeGroup :=
  let trimmed := trimStr query
  if trimmed = [] then groups
  else
    let needle := toLowerStr trimmed
    groups.filter (fun g => containsSub (toLowerStr g.ty) needle)

/-- `dropLastRune` from `main.go`. -/
def dropLastRune (text : Str) : Str :=
  if text = [] then text else text.dropLast

/-- Model of Go `filtered[i]` / `groups[i]` (in-range at all use
sites). -/
def gAt (gs : List TypeGroup) (i : Int) : TypeGroup := gs.getD i.toNat { ty := [], count := 0 }

/-- The clamped group index computed by the clamp that ends
`model.Update` (only active in group mode):
`if groupIndex >= len(filtered) { groupIndex = len(filtered)-1 }` then
`if groupIndex < 0 { groupIndex = 0 }`. -/
def clampedGroupIndex (m : Model) : Int :=
  if m.mode = GoMode.group then
    let filtered := filterGroups m.groups m.groupQuery
    let gi := if m.groupIndex ≥ (filtered.length : Int) then (filtered.length : Int) - 1
              else m.groupIndex
    if gi < 0 then 0 else gi
  else m.groupIndex

/-- The unconditional clamp at the end of `model.Update` (a no-op
outside group mode). -/
def finalClamp (m : Model) : Model := { m with groupIndex := clampedGroupIndex m }

/-- The resize handling of `model.Update` (`tea.WindowSizeMsg`). -/
def resizeStep (hl : Str → Str → Str) (m : Model) (w h : Int) : Model :=
  let m1 := { m with width := w, height := h }
  if m1.mode = GoMode.cards ∧ m1.index < (m1.questions.length : Int) then
    let maxScroll :=
      cardMaxScroll hl (getQ m1.questions m1.index.toNat) m1.showAnswers m1.width m1.height
    { m1 with scrollOffset := clampScroll m1.scrollOffset maxScroll }
  else m1

/-- `model.Update` from `main.go`, as a pure transition function.  The
external collaborators are parameters: `hl` is the syntax highlighter,
`load` is `loadQuestions` closed over the database handle (returning
either the rows or an error message), and `rand` is the random source
used by `shuffleQuestions`.  Paths that `return` early in Go skip
`finalClamp`; all others end with it. -/
def update (hl : Str → Str → Str) (load : Str → Except Str (List Question))
    (rand : Nat → Nat) (msg : Msg) (m : Model) : Model × Option GoCmd :=
  match msg with
  | Msg.windowSize w h => (finalClamp (resizeStep hl m w h), none)
  | Msg.other => (finalClamp m, none)
  | Msg.key k =>
    if m.mode = GoMode.group ∧ m.groupSearch then
      if k.str = "ctrl+c" ∨ k.str = "q" then (m, some GoCmd.quit)
      else
        (match k.ktype with
         | KeyType.esc => { m with groupSearch := false }
         | KeyType.enter => { m with groupSearch := false }
         | KeyType.backspace => { m with groupQuery := dropLastRune m.groupQuery }
         | KeyType.ctrlH => { m with groupQuery := dropLastRune m.groupQuery }
         | KeyType.runes => { m with groupQuery := m.groupQuery ++ k.runes }
         | KeyType.other => m,
         none)
    else if k.str = "ctrl+c" ∨ k.str = "q" then (m, some GoCmd.quit)
    else if k.str = "up" ∨ k.str = "k" ∨ k.str = "K" then
      let m1 :=
        if m.mode = GoMode.cards ∧ m.index < (m.questions.length : Int) then
          if m.scrollOffset > 0 then { m with scrollOffset := m.scrollOffset - 1 } else m
        else if m.mode = GoMode.group ∧ m.groupIndex > 0 then
          { m with groupIndex := m.groupIndex - 1 }
        else m
      (finalClamp m1, none)
    else if k.str = "down" ∨ k.str = "j" ∨ k.str = "J" then
      let m1 :=
        if m.mode = GoMode.cards ∧ m.index < (m.questions.length : Int) then
          let maxScroll := cardMaxScroll hl (getQ m.questions m.index.toNat)
            m.showAnswers m.width m.height
          if m.scrollOffset < maxScroll then { m with scrollOffset := m.scrollOffset + 1 } else m
        else if m.mode = GoMode.group then
          let filtered := filterGroups m.groups m.groupQuery
          if m.groupIndex < (filtered.length : Int) - 1 then
            { m with groupIndex := m.groupIndex + 1 }
          else m
        else m
      (finalClamp m1, none)
    else if k.str = "/" then
      let m1 :=
        if m.mode = GoMode.group then { m with groupSearch := true, groupQuery := [] } else m
      (finalClamp m1, none)
    else if k.str = "enter" then
      if m.mode = GoMode.group then
        let filtered := filterGroups m.groups m.groupQuery
        if m.groupIndex ≥ 0 ∧ m.groupIndex < (filtered.length : Int) then
          let selected := (gAt filtered m.groupIndex).ty
          match load selected with
          | Except.error e => ({ m with err := some e }, none)
          | Except.ok questions =>
            (finalClamp { m with mode := GoMode.cards
                                , questions := shuffleQuestions rand questions
                                , index := 0
                                , showAnswers := false
                                , scrollOffset := 0 }, none)
        else (finalClamp m, none)
      else if m.index < (m.questions.length : Int) then
        (finalClamp { m with showAnswers := !m.showAnswers, scrollOffset := 0 }, none)
      else (finalClamp m, none)
    else if k.str = "l" ∨ k.str = "L" then
      let m1 :=
        if m.mode = GoMode.cards ∧ m.index < (m.questions.length : Int) then
          { m with index := m.index + 1, showAnswers := false, scrollOffset := 0 }
        else m
      (finalClamp m1, none)
    else if k.str = "h" ∨ k.str = "H" then
      let m1 :=
        if m.mode = GoMode.cards ∧ m.index > 0 then
          { m with index := m.index - 1, showAnswers := false, scrollOffset := 0 }
        else m
      (finalClamp m1, none)
    else (finalClamp m, none)

/-- Decimal rendering of a Go `int` (`fmt` verb `%d`). -/
def intToStr (n : Int) : Str := (toString n).data

/-- `visualWidth` from `main.go`: rendered width ignoring ANSI colour
escape sequences. -/
def visualWidthAux : Str → Bool → Nat
  | [], _ => 0
  | c :: rest, inEscape =>
    if c = '\x1b' then visualWidthAux rest true
    else if inEscape then
      visualWidthAux rest (if c = 'm' then false else true)
    else 1 + visualWidthAux rest false

/-- `visualWidth(text)` from `main.go`. -/
def visualWidth (text : Str) : Nat := visualWidthAux text false

/-- `truncateToVisualWidth` from `main.go`: keep at most `maxWidth`
visible characters; escape sequences encountered before the cut are
copied, and the `break` drops everything after it. -/
def truncAux : Str → Bool → Int → Int → Str
  | [], _, _, _ => []
  | c :: rest, inEscape, w, maxWidth =>
    if c = '\x1b' then c :: truncAux rest true w maxWidth
    else if inEscape then c :: truncAux rest (if c = 'm' then false else true) w maxWidth
    else if w ≥ maxWidth then []
    else c :: truncAux rest inEscape (w + 1) maxWidth

/-- `truncateToVisualWidth(text, maxWidth)` from `main.go`. -/
def truncateToVisualWidth (text : Str) (maxWidth : Int) : Str :=
  truncAux text false 0 maxWidth

/-- `padRight(text, width)` from `main.go`: pad with spaces (or
truncate) to `width` visible columns. -/
def padRight (text : Str) (width : Int) : Str :=
  if (visualWidth text : Int) ≥ width then truncateToVisualWidth text width
  else text ++ List.replicate (width - (visualWidth text : Int)).toNat ' '

/-- Go `fmt.Sprintf` `%*s`: right-align `s` in a field of width `w`
(all call sites use a positive field width at least the string
length). -/
def padLeft (s : Str) (w : Int) : Str :=
  List.replicate (w - (s.length : Int)).toNat ' ' ++ s

/-- Go slice `ls[a:b]` (used in-range only). -/
def sliceInt (ls : List Str) (a b : Int) : List Str :=
  (ls.drop a.toNat).take (b - a).toNat

/-- `padToHeight(view, height)` from `main.go`: truncate to the terminal
row count, or pad with 80-space blank rows. -/
def padToHeight (v : Str) (height : Int) : Str :=
  if height ≤ 0 ∨ v = [] then v
  else
    let viewLines := splitChar '\n' v
    if (viewLines.length : Int) ≥ height then joinNl (viewLines.take height.toNat)
    else joinNl (viewLines ++
      List.replicate (height - viewLines.length).toNat (List.replicate 80 ' '))

/-- `renderCard` from `main.go`: the bordered card frame around the
visible slice of content lines. -/
def renderCard (hl : Str → Str → Str) (q : Question) (showAnswers : Bool)
    (pos total width height scrollOffset : Int) : Str :=
  let inner := width - 2
  let line := fun (text : Str) =>
    orange ++ str ("|") ++ reset ++ str (" ") ++ padRight text (inner - 2)
      ++ str (" ") ++ orange ++ str ("|") ++ reset
  let contentLines := buildCardContentLines hl q showAnswers (inner - 2)
  let visibleLines := visibleContentLines (contentLines.length : Int) height
  let maxScroll := max 0 ((contentLines.length : Int) - visibleLines)
  let so := clampScroll scrollOffset maxScroll
  let start := so
  let stop := min (start + visibleLines) (contentLines.length : Int)
  let controls0 :=
    if showAnswers then str ("H/L: next card  •  Enter: flip")
    else str ("Enter: flip  •  H/L: next card")
  let controls :=
    if (contentLines.length : Int) > visibleLines then str ("Up/Down: scroll  •  ") ++ controls0
    else controls0
  let header :=
    str ("fcards") ++ padLeft (intToStr pos ++ str ("/") ++ intToStr total) (inner - 8)
  let border := str ("+") ++ List.replicate inner.toNat '-' ++ str ("+")
  orange ++ border ++ str ("\n")
    ++ line header ++ str ("\n")
    ++ orange ++ border ++ str ("\n") ++ reset
    ++ (sliceInt contentLines start stop).flatMap (fun l => line l ++ str ("\n"))
    ++ line controls ++ str ("\n")
    ++ orange ++ border ++ reset

/-- `renderGroupList` from `main.go`: the scrollable, filterable
category list (the `width` parameter is unused in the source too). -/
def renderGroupList (groups : List TypeGroup) (selected width height : Int)
    (query : Str) (searching : Bool) : Str :=
  let _ := width
  let filtered := filterGroups groups query
  let head := orange ++ str ("fcards — group by type") ++ reset ++ str ("\n\n")
    ++ (if searching ∨ ¬ trimStr query = [] then str ("Search: ") ++ query ++ str ("\n\n")
        else [])
  if filtered = [] then
    head ++ str ("No types found.\n") ++ str ("q to quit\n")
  else
    let maxLines := let v := height - 4; if v < 6 then 6 else v
    let start := if selected ≥ maxLines then selected - maxLines + 1 else 0
    let stop := min (start + maxLines) (filtered.length : Int)
    let rows := (List.range (stop - start).toNat).flatMap (fun k =>
      let i := start + (k : Int)
      let g := gAt filtered i
      let name := if trimStr g.ty = [] then str ("(none)") else trimStr g.ty
      let rowText := name ++ str (" - ") ++ intToStr g.count
      (if i = selected then orange ++ str ("> ") ++ rowText ++ reset
       else str ("  ") ++ rowText) ++ str ("\n"))
    head ++ rows ++ str ("\n")
      ++ (if searching then str ("Type to search  •  Enter/Esc: done  •  q: quit")
          else str ("J/K: move  •  Enter: open  •  /: search  •  q: quit"))

/-- `model.View` from `main.go`, as a pure frame function over the same
externals as `update`. -/
def view (hl : Str → Str → Str) (m : Model) : Str :=
  match m.err with
  | some e => padToHeight (str ("Error: ") ++ e ++ str ("\nq to quit\n")) m.height
  | none =>
    if m.mode = GoMode.group then
      padToHeight
        (renderGroupList m.groups m.groupIndex m.width m.height m.groupQuery m.groupSearch
          ++ str ("\n")) m.height
    else if m.index ≥ (m.questions.length : Int) then
      padToHeight
        (orange ++ str ("No more questions in this session.") ++ reset ++ str ("\nq to quit\n"))
        m.height
    else
      let width := cardWidth m.width
      let q := getQ m.questions m.index.toNat
      let maxScroll := cardMaxScroll hl q m.showAnswers m.width m.height
      let so := clampScroll m.scrollOffset maxScroll
      padToHeight
        (renderCard hl q m.showAnswers (m.index + 1) (m.questions.length : Int) width m.height so
          ++ str ("\n")) m.height

theorem finalClamp_mode (m : Model) : (finalClamp m).mode = m.mode := rfl

theorem finalClamp_groups (m : Model) : (finalClamp m).groups = m.groups := rfl

theorem finalClamp_groupQuery (m : Model) : (finalClamp m).groupQuery = m.groupQuery := rfl

theorem finalClamp_groupIndex (m : Model) :
    (finalClamp m).groupIndex = clampedGroupIndex m := rfl

theorem finalClamp_err (m : Model) : (finalClamp m).err = m.err := rfl

/-- The invariant C3 states for browser mode: the selected index lies in
`[0, len(filtered)-1]`, or equals 0 when the filtered list is empty. -/
def browserIndexInv (m : Model) : Prop :=
  if (filterGroups m.groups m.groupQuery).length = 0 then m.groupIndex = 0
  else 0 ≤ m.groupIndex ∧
    m.groupIndex ≤ ((filterGroups m.groups m.groupQuery).length : Int) - 1

theorem clampedGroupIndex_eq (m : Model) (h : m.mode = GoMode.group) :
    clampedGroupIndex m =
      if (if m.groupIndex ≥ ((filterGroups m.groups m.groupQuery).length : Int)
            then ((filterGroups m.groups m.groupQuery).length : Int) - 1
            else m.groupIndex) < 0 then 0
      else if m.groupIndex ≥ ((filterGroups m.groups m.groupQuery).length : Int)
            then ((filterGroups m.groups m.groupQuery).length : Int) - 1
            else m.groupIndex := by
  unfold clampedGroupIndex
  rw [if_pos h]

theorem finalClamp_browserIndexInv (m : Model) (h : m.mode = GoMode.group) :
    browserIndexInv (finalClamp m) := by
  unfold browserIndexInv
  rw [finalClamp_groups, finalClamp_groupQuery, finalClamp_groupIndex,
    clampedGroupIndex_eq m h]
  split_ifs <;> omega

instance (m : Model) : Decidable (browserIndexInv m) := by
  unfold browserIndexInv
  infer_instance

/-- A browser-mode state with active search, two categories, and the
second one selected. -/
def searchModel : Model :=
  { mode := GoMode.group, questions := [], index := 0, showAnswers := false
  , scrollOffset := 0, width := 64, height := 0
  , groups := [{ ty := str ("gen"), count := 3 }, { ty := str ("x"), count := 2 }]
  , groupIndex := 1, groupQuery := [], groupSearch := true, err := none }

/-- A load collaborator that always fails (never reached below). -/
def loadZero : Str → Except Str (List Question) := fun _ => Except.error []

/-- C3 (counterexample): typing the character `g` while search input is
active shrinks the filtered list to one entry but returns early from
`model.Update`, skipping the re-clamp — the selected index stays at 1,
outside `[0, 0]`.  The clamp is therefore NOT unconditional on which
event fired. -/
theorem update_search_skips_clamp :
    (update hlZero loadZero (fun _ => 0)
        (Msg.key { str := "g", ktype := KeyType.runes, runes := str ("g") })
        searchModel).1.groupIndex = 1 ∧
    (filterGroups
        (update hlZero loadZero (fun _ => 0)
          (Msg.key { str := "g", ktype := KeyType.runes, runes := str ("g") })
          searchModel).1.groups
        (update hlZero loadZero (fun _ => 0)
          (Msg.key { str := "g", ktype := KeyType.runes, runes := str ("g") })
          searchModel).1.groupQuery).length = 1 ∧
    ¬ browserIndexInv (update hlZero loadZero (fun _ => 0)
        (Msg.key { str := "g", ktype := KeyType.runes, runes := str ("g") })
        searchModel).1 := by
  refine ⟨by decide, by decide, by decide⟩

/-- The events that reach the unconditional clamp ending `model.Update`:
everything except keys captured by the active search-input branch and
the immediate-quit keys. -/
def fallsThrough (m : Model) (msg : Msg) : Prop :=
  match msg with
  | Msg.windowSize _ _ => True
  | Msg.other => True
  | Msg.key k => m.groupSearch = false ∧ ¬ k.str = "ctrl+c" ∧ ¬ k.str = "q"

theorem resizeStep_mode (hl : Str → Str → Str) (m : Model) (w h : Int) :
    (resizeStep hl m w h).mode = m.mode := by
  simp only [resizeStep]
  split <;> rfl

/-- C3 (amended): the re-clamp of the selected browser index runs only
for events that reach the end of `model.Update`.  For every such event —
not handled by the active search-input branch, not an immediate quit —
if the machine is still in browser mode with no stored load error after
the event, the selected index lies within `[0, len(filtered)-1]`, or
equals 0 when the filtered list is empty.  (Events handled while search
input is active return early and skip the clamp; see the
counterexample.) -/
theorem update_clamps_browser_index (hl : Str → Str → Str)
    (load : Str → Except Str (List Question)) (rand : Nat → Nat)
    (m : Model) (msg : Msg) (hmode : m.mode = GoMode.group)
    (hft : fallsThrough m msg) :
    (update hl load rand msg m).1.mode = GoMode.group →
    (update hl load rand msg m).1.err = none →
    browserIndexInv (update hl load rand msg m).1 := by
  cases msg with
  | windowSize w h =>
    intro _ _
    exact finalClamp_browserIndexInv _ (by rw [resizeStep_mode]; exact hmode)
  | other =>
    intro _ _
    exact finalClamp_browserIndexInv _ hmode
  | key k =>
    obtain ⟨hsearch, hnc, hnq⟩ := hft
    have hout : ¬ (m.mode = GoMode.group ∧ m.groupSearch) := by
      rintro ⟨_, hs⟩
      rw [hsearch] at hs
      exact Bool.false_ne_true hs
    have hquit : ¬ (k.str = "ctrl+c" ∨ k.str = "q") := by
      rintro (h | h)
      · exact hnc h
      · exact hnq h
    simp only [update, if_neg hout, if_neg hquit]
    split_ifs <;>
      first
        | (intro _ _
           exact finalClamp_browserIndexInv _ hmode)
        | (exact absurd hmode (by assumption))
        | (cases hld : load (gAt (filterGroups m.groups m.groupQuery) m.groupIndex).ty with
           | error e =>
             simp only [hld]
             intro _ h2
             exact absurd h2 (by simp)
           | ok qs =>
             simp only [hld]
             intro h1 _
             rw [finalClamp_mode] at h1
             exact absurd h1 (by simp))

/-- Witness for C3 (amended): a `down` key in browser mode. -/
theorem update_clamps_browser_index_witness :
    ({ searchModel with groupSearch := false } : Model).mode = GoMode.group ∧
    fallsThrough { searchModel with groupSearch := false }
      (Msg.key { str := "down", ktype := KeyType.other, runes := [] }) ∧
    ((update hlZero loadZero (fun _ => 0)
        (Msg.key { str := "down", ktype := KeyType.other, runes := [] })
        { searchModel with groupSearch := false }).1.mode = GoMode.group →
      (update hlZero loadZero (fun _ => 0)
        (Msg.key { str := "down", ktype := KeyType.other, runes := [] })
        { searchModel with groupSearch := false }).1.err = none →
      browserIndexInv (update hlZero loadZero (fun _ => 0)
        (Msg.key { str := "down", ktype := KeyType.other, runes := [] })
        { searchModel with groupSearch := false }).1) :=
  ⟨by decide, by exact ⟨rfl, by decide, by decide⟩,
    update_clamps_browser_index hlZero loadZero (fun _ => 0) _ _ (by decide)
      ⟨rfl, by decide, by decide⟩⟩

theorem finalClamp_of_not_group (m : Model) (h : ¬ m.mode = GoMode.group) :
    finalClamp m = m := by
  unfold finalClamp clampedGroupIndex
  rw [if_neg h]

theorem clampScroll_idem (o mx : Int) (hmx : 0 ≤ mx) :
    clampScroll (clampScroll o mx) mx = clampScroll o mx := by
  unfold clampScroll
  split_ifs <;> omega

theorem cardMaxScroll_nonneg (hl : Str → Str → Str) (q : Question) (sa : Bool)
    (tw th : Int) : 0 ≤ cardMaxScroll hl q sa tw th := by
  show (0 : Int) ≤
    (if visibleContentLines
          ((buildCardContentLines hl q sa (cardWidth tw - 2 - 2)).length : Int) th = 0 ∨
        ((buildCardContentLines hl q sa (cardWidth tw - 2 - 2)).length : Int) ≤
          visibleContentLines
            ((buildCardContentLines hl q sa (cardWidth tw - 2 - 2)).length : Int) th
     then 0
     else ((buildCardContentLines hl q sa (cardWidth tw - 2 - 2)).length : Int) -
        visibleContentLines
          ((buildCardContentLines hl q sa (cardWidth tw - 2 - 2)).length : Int) th)
  split_ifs with hcond <;> omega

theorem finalClamp_idem (m : Model) : finalClamp (finalClamp m) = finalClamp m := by
  by_cases h : m.mode = GoMode.group
  · have hmode2 : (finalClamp m).mode = GoMode.group := by
      rw [finalClamp_mode]; exact h
    have hval : clampedGroupIndex (finalClamp m) = clampedGroupIndex m := by
      rw [clampedGroupIndex_eq _ hmode2]
      rw [finalClamp_groups, finalClamp_groupQuery, finalClamp_groupIndex]
      rw [clampedGroupIndex_eq m h]
      split_ifs <;> omega
    show ({ m with groupIndex := clampedGroupIndex (finalClamp m) } : Model)
        = { m with groupIndex := clampedGroupIndex m }
    rw [hval]
  · rw [finalClamp_of_not_group m h, finalClamp_of_not_group m h]

/-- C7: pressing Enter in category-browser mode (search not active) with
a valid selected index into a non-empty filtered list loads the selected
category via the storage collaborator; on success the machine shuffles
the loaded questions and transitions to card-review mode with index 0,
answers hidden and scroll 0; on failure it stays in browser mode, stores
the error, and the next frame (`model.View`) renders the error message
instead of the list. -/
theorem update_enter_browser (hl : Str → Str → Str)
    (load : Str → Except Str (List Question)) (rand : Nat → Nat)
    (m : Model) (k : KeyMsg)
    (hmode : m.mode = GoMode.group) (hsearch : m.groupSearch = false)
    (hk : k.str = "enter")
    (hlo : m.groupIndex ≥ 0)
    (hhi : m.groupIndex < ((filterGroups m.groups m.groupQuery).length : Int)) :
    (∀ qs, load (gAt (filterGroups m.groups m.groupQuery) m.groupIndex).ty = Except.ok qs →
      update hl load rand (Msg.key k) m =
        ({ m with mode := GoMode.cards, questions := shuffleQuestions rand qs, index := 0, showAnswers := false, scrollOffset := 0 }, none)) ∧
    (∀ e, load (gAt (filterGroups m.groups m.groupQuery) m.groupIndex).ty = Except.error e →
      update hl load rand (Msg.key k) m = ({ m with err := some e }, none) ∧
      view hl { m with err := some e } =
        padToHeight (str ("Error: ") ++ e ++ str ("\nq to quit\n")) m.height) := by
  have hout : ¬ (m.mode = GoMode.group ∧ m.groupSearch) := by
    rintro ⟨_, hs⟩
    rw [hsearch] at hs
    exact Bool.false_ne_true hs
  simp only [update, hk, if_neg hout]
  rw [if_neg (by decide : ¬ (("enter" : String) = "ctrl+c" ∨ ("enter" : String) = "q"))]
  rw [if_neg (by decide : ¬ (("enter" : String) = "up" ∨ ("enter" : String) = "k"
    ∨ ("enter" : String) = "K"))]
  rw [if_neg (by decide : ¬ (("enter" : String) = "down" ∨ ("enter" : String) = "j"
    ∨ ("enter" : String) = "J"))]
  rw [if_neg (by decide : ¬ ("enter" : String) = "/")]
  rw [if_pos trivial]
  rw [if_pos hmode, if_pos ⟨hlo, hhi⟩]
  constructor
  · intro qs hqs
    simp only [hqs]
    have hcards : ¬ ({ m with mode := GoMode.cards, questions := shuffleQuestions rand qs, index := 0, showAnswers := false, scrollOffset := 0 } : Model).mode = GoMode.group := by
      intro hcon
      simp at hcon
    rw [finalClamp_of_not_group _ hcards]
  · intro e he
    rw [he]
    exact ⟨rfl, rfl⟩

/-- Witness for C7 at a concrete state: a successful load of the single
category. -/
theorem update_enter_browser_witness :
    ({ searchModel with groupSearch := false } : Model).mode = GoMode.group ∧
    update hlZero (fun _ => Except.ok [goQuestion]) (fun _ => 0)
        (Msg.key { str := "enter", ktype := KeyType.enter, runes := [] })
        { searchModel with groupSearch := false } =
      ({ { searchModel with groupSearch := false } with mode := GoMode.cards, questions := shuffleQuestions (fun _ => 0) [goQuestion], index := 0, showAnswers := false, scrollOffset := 0 }, none) :=
  ⟨rfl,
    (update_enter_browser hlZero (fun _ => Except.ok [goQuestion]) (fun _ => 0)
        { searchModel with groupSearch := false }
        { str := "enter", ktype := KeyType.enter, runes := [] }
        rfl rfl rfl (by decide) (by decide)).1 [goQuestion] rfl⟩

/-- C8: applying a resize event whose dimensions equal the state's
stored terminal dimensions twice produces the same state, and hence an
identical rendered frame, as applying it once.  (The first application
may clamp the card scroll offset and the browser selection index; both
clamps are idempotent, and the recomputed layout inputs are
unchanged.) -/
theorem update_resize_idempotent (hl : Str → Str → Str)
    (load : Str → Except Str (List Question)) (rand : Nat → Nat) (m : Model) :
    update hl load rand (Msg.windowSize m.width m.height)
        (update hl load rand (Msg.windowSize m.width m.height) m).1
      = update hl load rand (Msg.windowSize m.width m.height) m ∧
    view hl (update hl load rand (Msg.windowSize m.width m.height)
        (update hl load rand (Msg.windowSize m.width m.height) m).1).1
      = view hl (update hl load rand (Msg.windowSize m.width m.height) m).1 := by
  have hstate : update hl load rand (Msg.windowSize m.width m.height)
      (update hl load rand (Msg.windowSize m.width m.height) m).1
      = update hl load rand (Msg.windowSize m.width m.height) m := by
    by_cases hc : m.mode = GoMode.cards ∧ m.index < ((m.questions).length : Int)
    · have e1 : update hl load rand (Msg.windowSize m.width m.height) m = (finalClamp { m with scrollOffset := clampScroll m.scrollOffset (cardMaxScroll hl (getQ m.questions m.index.toNat) m.showAnswers m.width m.height) }, none) := by
        show (finalClamp (resizeStep hl m m.width m.height), none) = (finalClamp { m with scrollOffset := clampScroll m.scrollOffset (cardMaxScroll hl (getQ m.questions m.index.toNat) m.showAnswers m.width m.height) }, none)
        rw [show resizeStep hl m m.width m.height = { m with scrollOffset := clampScroll m.scrollOffset (cardMaxScroll hl (getQ m.questions m.index.toNat) m.showAnswers m.width m.height) } from by
          show (if m.mode = GoMode.cards ∧ m.index < ((m.questions).length : Int) then { m with scrollOffset := clampScroll m.scrollOffset (cardMaxScroll hl (getQ m.questions m.index.toNat) m.showAnswers m.width m.height) } else m) = { m with scrollOffset := clampScroll m.scrollOffset (cardMaxScroll hl (getQ m.questions m.index.toNat) m.showAnswers m.width m.height) }
          rw [if_pos hc]]
      have h2 : resizeStep hl (finalClamp { m with scrollOffset := clampScroll m.scrollOffset (cardMaxScroll hl (getQ m.questions m.index.toNat) m.showAnswers m.width m.height) }) m.width m.height = finalClamp { m with scrollOffset := clampScroll m.scrollOffset (cardMaxScroll hl (getQ m.questions m.index.toNat) m.showAnswers m.width m.height) } := by
        show (if m.mode = GoMode.cards ∧ m.index < ((m.questions).length : Int) then { (finalClamp { m with scrollOffset := clampScroll m.scrollOffset (cardMaxScroll hl (getQ m.questions m.index.toNat) m.showAnswers m.width m.height) }) with scrollOffset := clampScroll (clampScroll m.scrollOffset (cardMaxScroll hl (getQ m.questions m.index.toNat) m.showAnswers m.width m.height)) (cardMaxScroll hl (getQ m.questions m.index.toNat) m.showAnswers m.width m.height) } else (finalClamp { m with scrollOffset := clampScroll m.scrollOffset (cardMaxScroll hl (getQ m.questions m.index.toNat) m.showAnswers m.width m.height) })) = (finalClamp { m with scrollOffset := clampScroll m.scrollOffset (cardMaxScroll hl (getQ m.questions m.index.toNat) m.showAnswers m.width m.height) })
        rw [if_pos hc, clampScroll_idem m.scrollOffset (cardMaxScroll hl (getQ m.questions m.index.toNat) m.showAnswers m.width m.height)
          (cardMaxScroll_nonneg hl (getQ m.questions m.index.toNat)
            m.showAnswers m.width m.height)]
        exact rfl
      rw [e1]
      show update hl load rand (Msg.windowSize m.width m.height) (finalClamp { m with scrollOffset := clampScroll m.scrollOffset (cardMaxScroll hl (getQ m.questions m.index.toNat) m.showAnswers m.width m.height) }) = (finalClamp { m with scrollOffset := clampScroll m.scrollOffset (cardMaxScroll hl (getQ m.questions m.index.toNat) m.showAnswers m.width m.height) }, none)
      show (finalClamp (resizeStep hl (finalClamp { m with scrollOffset := clampScroll m.scrollOffset (cardMaxScroll hl (getQ m.questions m.index.toNat) m.showAnswers m.width m.height) }) m.width m.height), none) = (finalClamp { m with scrollOffset := clampScroll m.scrollOffset (cardMaxScroll hl (getQ m.questions m.index.toNat) m.showAnswers m.width m.height) }, none)
      rw [h2, finalClamp_idem]
    · have e1 : update hl load rand (Msg.windowSize m.width m.height) m = (finalClamp m, none) := by
        show (finalClamp (resizeStep hl m m.width m.height), none) = (finalClamp m, none)
        rw [show resizeStep hl m m.width m.height = m from by
          show (if m.mode = GoMode.cards ∧ m.index < ((m.questions).length : Int) then { m with scrollOffset := clampScroll m.scrollOffset (cardMaxScroll hl (getQ m.questions m.index.toNat) m.showAnswers m.width m.height) } else m) = m
          rw [if_neg hc]]
      have h2 : resizeStep hl (finalClamp m) m.width m.height = finalClamp m := by
        show (if m.mode = GoMode.cards ∧ m.index < ((m.questions).length : Int) then { (finalClamp m) with scrollOffset := clampScroll m.scrollOffset (cardMaxScroll hl (getQ m.questions m.index.toNat) m.showAnswers m.width m.height) } else (finalClamp m)) = finalClamp m
        rw [if_neg hc]
      rw [e1]
      show update hl load rand (Msg.windowSize m.width m.height) (finalClamp m) = (finalClamp m, none)
      show (finalClamp (resizeStep hl (finalClamp m) m.width m.height), none)
        = (finalClamp m, none)
      rw [h2, finalClamp_idem]
  exact ⟨hstate, by rw [hstate]⟩
